import Mathlib

/-!
Shallow embedding of `src/Software/ledIndicator.cpp` (bi-color LED system
activity monitor for the Raspberry Pi), together with proofs about the
CPU-load sampler, the flash policy state machine of `main`, the LED output
helpers and the shutdown paths.

Modelling conventions:
* C++ `double` arithmetic is embedded as exact rational (`ℚ`) arithmetic.
* `unsigned long long` counters are embedded as `Nat` values together with
  explicit reduction modulo `2 ^ 64` wherever the C++ code adds or
  subtracts them (`totalOf`, `idleOf`, `usub`).
* `(int)` casts of nonnegative doubles truncate toward zero (`itrunc`),
  and C++ `int` division is `Int.tdiv` (truncation toward zero).
* Timestamps (`std::chrono` millisecond counts) are embedded as `Int`.
-/

/-! ## Configuration constants (lines 32-55 of ledIndicator.cpp) -/

def PIN_A : Nat := 16

def PIN_B : Nat := 26

def CHECK_INTERVAL_MS : Int := 25

def MIN_FLASH_DURATION_MS : Int := 12

def MAX_FLASH_DURATION_MS : Int := 50

def ACTIVITY_THRESHOLD : ℚ := 1/2

def ACTIVITY_SMOOTHING : ℚ := 1/2

def GREEN_BRIGHTNESS : Nat := 32

def BASE_FLASH_CHANCE : ℚ := 1/4

def CPU_SCALING : ℚ := 4/100

def FLASH_VARIATION : ℚ := 3/10

def MIN_PAUSE_BETWEEN_FLASHES_MS : Int := 30

/-! ## CPU statistics (struct CPUStats, lines 63-71) -/

structure CPUStats where
  user : Nat
  nice : Nat
  system : Nat
  idle : Nat
  iowait : Nat
  irq : Nat
  softirq : Nat
deriving DecidableEq

/-- Modulus of `unsigned long long` arithmetic: 2 ^ 64. -/
def W : Nat := 18446744073709551616

/-- Wrapping sum of all seven counters, as the C++ additions of
`unsigned long long` compute it (a chain of additions each reduced mod
`2 ^ 64` equals a single final reduction). Lines 140-143. -/
def totalOf (s : CPUStats) : Nat :=
  (s.user + s.nice + s.system + s.idle + s.iowait + s.irq + s.softirq) % W

/-- Wrapping sum `idle + iowait` (lines 146-147). -/
def idleOf (s : CPUStats) : Nat := (s.idle + s.iowait) % W

/-- Wrapping `unsigned long long` subtraction `a - b` for operands already
reduced below `2 ^ 64` (as `totalOf`/`idleOf` outputs are). -/
def usub (a b : Nat) : Nat := (W + a - b) % W

/-- Exact (mathematical) sum of the seven counters, used only to state
hypotheses about snapshots. -/
def exactTotal (s : CPUStats) : Nat :=
  s.user + s.nice + s.system + s.idle + s.iowait + s.irq + s.softirq

/-- Pointwise monotonicity of the seven counters between two snapshots. -/
def statsLE (a b : CPUStats) : Prop :=
  a.user ≤ b.user ∧ a.nice ≤ b.nice ∧ a.system ≤ b.system ∧
  a.idle ≤ b.idle ∧ a.iowait ≤ b.iowait ∧ a.irq ≤ b.irq ∧
  a.softirq ≤ b.softirq

instance (a b : CPUStats) : Decidable (statsLE a b) := by
  unfold statsLE; infer_instance

/-- One admissible sampling step: counters do not decrease and the total
increment stays below `2 ^ 64`, so the 64-bit difference does not wrap. -/
def okStep (a b : CPUStats) : Prop :=
  statsLE a b ∧ exactTotal b < exactTotal a + W

instance (a b : CPUStats) : Decidable (okStep a b) := by
  unfold okStep; infer_instance

/-! ## CPUMonitor (class CPUMonitor, lines 116-160) -/

structure CPUMonitor where
  lastStats : CPUStats
  cpuLoad : ℚ
  initialized : Bool
deriving DecidableEq

/-- Constructor `CPUMonitor()` (lines 123-125): `cpuLoad = 0.0`,
`initialized = false`; the constructor performs one `readCPUStats` into
`lastStats`, whose result (`s0`, or garbage on failure) is irrelevant to
all later behavior because `initialized` is still `false`. -/
def mkMonitor (s0 : CPUStats) : CPUMonitor :=
  { lastStats := s0, cpuLoad := 0, initialized := false }

/-- `CPUMonitor::getCPULoad` (lines 127-159). The `read` argument is the
outcome of `readCPUStats`: `none` on failure, `some s` on success. Returns
the reported load and the updated monitor state. -/
def getCPULoad (m : CPUMonitor) (read : Option CPUStats) : ℚ × CPUMonitor :=
  match read with
  | none => (m.cpuLoad, m)
  | some currentStats =>
    if m.initialized = false then
      (0, { m with initialized := true, lastStats := currentStats })
    else
      let total_diff := usub (totalOf currentStats) (totalOf m.lastStats)
      let idle_diff := usub (idleOf currentStats) (idleOf m.lastStats)
      if total_diff = 0 then
        (m.cpuLoad, { m with lastStats := currentStats })
      else
        let currentLoad : ℚ := 100 * (1 - (idle_diff : ℚ) / (total_diff : ℚ))
        let newLoad : ℚ :=
          m.cpuLoad * ACTIVITY_SMOOTHING + currentLoad * (1 - ACTIVITY_SMOOTHING)
        (newLoad, { lastStats := currentStats, cpuLoad := newLoad,
                    initialized := m.initialized })

/-- Iterated calls to `getCPULoad`, keeping only the monitor state. -/
def runReads (m : CPUMonitor) (reads : List (Option CPUStats)) : CPUMonitor :=
  reads.foldl (fun acc r => (getCPULoad acc r).2) m

/-- Iterated successful reads. -/
def runSome (m : CPUMonitor) (reads : List CPUStats) : CPUMonitor :=
  reads.foldl (fun acc s => (getCPULoad acc (some s)).2) m

/-! ## GPIO output model (setRed/setGreen/setOff, lines 74-88) -/

structure GPIOState where
  levelA : Nat
  levelB : Nat
  pwmA : Nat
  pwmB : Nat
deriving DecidableEq

/-- `gpioWrite(pin, level)` on the two configured pins. -/
def gpioWriteOp (g : GPIOState) (pin level : Nat) : GPIOState :=
  if pin = PIN_A then { g with levelA := level }
  else if pin = PIN_B then { g with levelB := level }
  else g

/-- `gpioPWM(pin, duty)` on the two configured pins. -/
def gpioPWMOp (g : GPIOState) (pin duty : Nat) : GPIOState :=
  if pin = PIN_A then { g with pwmA := duty }
  else if pin = PIN_B then { g with pwmB := duty }
  else g

/-- `setRed()` (lines 74-78): PWM B to 0, write A high, write B low. -/
def setRed (g : GPIOState) : GPIOState :=
  gpioWriteOp (gpioWriteOp (gpioPWMOp g PIN_B 0) PIN_A 1) PIN_B 0

/-- `setGreen()` (lines 80-83): write A low, PWM B to GREEN_BRIGHTNESS. -/
def setGreen (g : GPIOState) : GPIOState :=
  gpioPWMOp (gpioWriteOp g PIN_A 0) PIN_B GREEN_BRIGHTNESS

/-- `setOff()` (lines 85-88): write A low, PWM B to 0. -/
def setOff (g : GPIOState) : GPIOState :=
  gpioPWMOp (gpioWriteOp g PIN_A 0) PIN_B 0

/-- Observable outcome of a shutdown path: final pin state, whether
`gpioTerminate()` ran, and the process exit status. -/
structure ShutdownResult where
  gpio : GPIOState
  terminated : Bool
  exitCode : Nat
deriving DecidableEq

/-- `signalHandler` (lines 91-99): clears `running`, calls `setOff()`,
`gpioTerminate()`, and `exit(0)`. -/
def signalHandler (g : GPIOState) : ShutdownResult :=
  { gpio := setOff g, terminated := true, exitCode := 0 }

/-- The shutdown path after the main loop exits (lines 257-264):
`setOff()`, `gpioTerminate()`, `return 0`. -/
def loopExitShutdown (g : GPIOState) : ShutdownResult :=
  { gpio := setOff g, terminated := true, exitCode := 0 }

/-- Exit status when `gpioInitialise() < 0` (line 175): `return 1`. -/
def initFailureExitCode : Nat := 1

/-! ## Flash policy state machine (main loop, lines 204-241) -/

structure FlashState where
  isGreen : Bool
  flashTimer : Int
  lastFlashEndTime : Int
  currentFlashDuration : Int
deriving DecidableEq

/-- State just before the first loop iteration (lines 205-208): red/idle,
both timers at the start instant `t0`, duration `MIN_FLASH_DURATION_MS`. -/
def initialFlashState (t0 : Int) : FlashState :=
  { isGreen := false, flashTimer := t0, lastFlashEndTime := t0,
    currentFlashDuration := MIN_FLASH_DURATION_MS }

/-- C++ `(int)` cast of a double: truncation toward zero. All casts in
this program are applied to nonnegative values, where truncation and
floor agree. -/
def itrunc (q : ℚ) : Int := if q < 0 then -⌊-q⌋ else ⌊q⌋

/-- `randomFactor` (line 224) from the first uniform draw `r1 ∈ [0,1)`. -/
def randomFactor (r1 : ℚ) : ℚ := 1/2 + r1 * FLASH_VARIATION

/-- `flashProbability` (line 225). -/
def flashProbability (cpuLoad r1 : ℚ) : ℚ :=
  BASE_FLASH_CHANCE * (cpuLoad * CPU_SCALING) * randomFactor r1

/-- `durationRange` (line 229). -/
def durationRange : Int := MAX_FLASH_DURATION_MS - MIN_FLASH_DURATION_MS

/-- Unjittered base duration (lines 228-230):
`MIN + (int)(durationRange * min(1, cpuLoad/100))`. -/
def baseDuration (cpuLoad : ℚ) : Int :=
  MIN_FLASH_DURATION_MS + itrunc ((durationRange : ℚ) * min 1 (cpuLoad / 100))

/-- `randomVariation` (line 232): `(int)(durationRange * 0.3 * r3)` for
the third uniform draw `r3 ∈ [0,1)`. -/
def randomVariation (r3 : ℚ) : Int :=
  itrunc ((durationRange : ℚ) * (3/10) * r3)

/-- The random adjustment added to the base duration (line 233):
`randomVariation - randomVariation / 2` in C++ `int` arithmetic. -/
def jitterAdjust (r3 : ℚ) : Int :=
  randomVariation r3 - Int.tdiv (randomVariation r3) 2

/-- New target flash duration (lines 228-235): base plus jitter, clamped
into `[MIN_FLASH_DURATION_MS, MAX_FLASH_DURATION_MS]`. -/
def newFlashDuration (cpuLoad r3 : ℚ) : Int :=
  max MIN_FLASH_DURATION_MS
    (min MAX_FLASH_DURATION_MS (baseDuration cpuLoad + jitterAdjust r3))

/-- One iteration of the main loop's state logic (lines 210-241), acting
on the flash state and the GPIO pins. `t` is `currentTime` in ms;
`r1, r2, r3` are the three potential `dis(gen)` draws of the iteration. -/
def tickFull (s : FlashState) (g : GPIOState) (cpuLoad : ℚ) (t : Int)
    (r1 r2 r3 : ℚ) : FlashState × GPIOState :=
  let elapsed := t - s.flashTimer
  let timeSinceLastFlash := t - s.lastFlashEndTime
  if s.isGreen = true ∧ elapsed > s.currentFlashDuration then
    ({ s with isGreen := false, lastFlashEndTime := t }, setRed g)
  else if s.isGreen = false ∧ cpuLoad > ACTIVITY_THRESHOLD ∧
          timeSinceLastFlash > MIN_PAUSE_BETWEEN_FLASHES_MS then
    if r2 < flashProbability cpuLoad r1 then
      ({ s with isGreen := true, flashTimer := t,
                currentFlashDuration := newFlashDuration cpuLoad r3 },
       setGreen g)
    else (s, g)
  else (s, g)

/-! ## Sampler lemmas -/

lemma diffs_spec (a b : CPUStats) (hle : statsLE a b)
    (hW : exactTotal b < exactTotal a + W) :
    usub (totalOf b) (totalOf a) = exactTotal b - exactTotal a
    ∧ usub (idleOf b) (idleOf a) = (b.idle + b.iowait) - (a.idle + a.iowait)
    ∧ (b.idle + b.iowait) - (a.idle + a.iowait) ≤ exactTotal b - exactTotal a := by
  obtain ⟨h1, h2, h3, h4, h5, h6, h7⟩ := hle
  simp only [usub, totalOf, idleOf, exactTotal, W] at hW ⊢
  refine ⟨?_, ?_, ?_⟩ <;> omega

lemma getCPULoad_some_lastStats (m : CPUMonitor) (s : CPUStats) :
    ((getCPULoad m (some s)).2).lastStats = s := by
  simp only [getCPULoad]
  split_ifs <;> rfl

lemma getCPULoad_some_bounds (m : CPUMonitor) (s : CPUStats)
    (h0 : 0 ≤ m.cpuLoad) (h1 : m.cpuLoad ≤ 100) (hok : okStep m.lastStats s) :
    0 ≤ ((getCPULoad m (some s)).2).cpuLoad
    ∧ ((getCPULoad m (some s)).2).cpuLoad ≤ 100 := by
  obtain ⟨hle, hW⟩ := hok
  obtain ⟨hT, hI, hIle⟩ := diffs_spec _ _ hle hW
  simp only [getCPULoad]
  by_cases hinit : m.initialized = false
  · rw [if_pos hinit]
    exact ⟨h0, h1⟩
  · rw [if_neg hinit]
    by_cases hz : usub (totalOf s) (totalOf m.lastStats) = 0
    · rw [if_pos hz]
      exact ⟨h0, h1⟩
    · rw [if_neg hz]
      rw [hT] at hz
      rw [hT, hI]
      dsimp only
      have hDpos : (0:ℚ) < ((exactTotal s - exactTotal m.lastStats : Nat) : ℚ) := by
        exact_mod_cast Nat.pos_of_ne_zero hz
      have hdle : (((s.idle + s.iowait) - (m.lastStats.idle + m.lastStats.iowait) : Nat) : ℚ)
          ≤ ((exactTotal s - exactTotal m.lastStats : Nat) : ℚ) := by
        exact_mod_cast hIle
      have hd0 : (0:ℚ) ≤ (((s.idle + s.iowait) - (m.lastStats.idle + m.lastStats.iowait) : Nat) : ℚ) :=
        Nat.cast_nonneg _
      have hx0 := div_nonneg hd0 hDpos.le
      have hx1 := (div_le_one hDpos).2 hdle
      unfold ACTIVITY_SMOOTHING
      constructor <;> linarith

lemma runSome_inv (reads : List CPUStats) :
    ∀ m : CPUMonitor, 0 ≤ m.cpuLoad → m.cpuLoad ≤ 100 →
      List.Chain okStep m.lastStats reads →
      0 ≤ (runSome m reads).cpuLoad ∧ (runSome m reads).cpuLoad ≤ 100 := by
  induction reads with
  | nil => exact fun m h0 h1 _ => ⟨h0, h1⟩
  | cons a l ih =>
    intro m h0 h1 hch
    rw [List.chain_cons] at hch
    have hb := getCPULoad_some_bounds m a h0 h1 hch.1
    have hl := getCPULoad_some_lastStats m a
    have hres := ih ((getCPULoad m (some a)).2) hb.1 hb.2 (by rw [hl]; exact hch.2)
    simpa [runSome, List.foldl_cons] using hres

/-- C1 (amended): for every run of the sampler on a sequence of CPU
snapshots whose seven counters are monotonically non-decreasing and whose
per-step exact total increment is below `2 ^ 64` (so the 64-bit counter
differences do not wrap), the smoothed load maintained by `getCPULoad`
stays within `[0, 100]`, without any explicit clamping. Quantifying over
all read lists covers the state after every call. -/
theorem smoothed_load_in_range (s0 : CPUStats) (reads : List CPUStats)
    (hchain : List.Chain okStep s0 reads) :
    0 ≤ (runSome (mkMonitor s0) reads).cpuLoad
    ∧ (runSome (mkMonitor s0) reads).cpuLoad ≤ 100 :=
  runSome_inv reads (mkMonitor s0) le_rfl (by norm_num [mkMonitor]) hchain

theorem smoothed_load_in_range_w :
    0 ≤ (runSome (mkMonitor ⟨0,0,0,0,0,0,0⟩) [⟨2,0,0,1,0,0,0⟩]).cpuLoad
    ∧ (runSome (mkMonitor ⟨0,0,0,0,0,0,0⟩) [⟨2,0,0,1,0,0,0⟩]).cpuLoad ≤ 100 :=
  smoothed_load_in_range ⟨0,0,0,0,0,0,0⟩ [⟨2,0,0,1,0,0,0⟩]
    (List.chain_cons.mpr ⟨by decide, List.Chain.nil⟩)

def cexLast : CPUStats := ⟨0, 0, 0, 0, 0, 0, 0⟩

def cexCurr : CPUStats := ⟨9223372036854775808, 9223372036854775804, 0, 5, 0, 0, 0⟩

/-- C1 counterexample: the two snapshots `cexLast`, `cexCurr` are
pointwise monotonically non-decreasing, yet after calibrating on
`cexLast` and sampling `cexCurr` the smoothed load is negative: the exact
total increment is `2 ^ 64 + 1`, so the wrapped 64-bit total difference
is `1` while the idle difference is `5`, giving a load of `-400` and a
smoothed value of `-200`. Monotonicity alone does not keep the value in
`[0, 100]`. -/
theorem smoothed_load_monotone_cex :
    statsLE cexLast cexCurr
    ∧ (runSome (mkMonitor cexLast) [cexLast, cexCurr]).cpuLoad < 0 := by
  constructor
  · decide
  · norm_num [runSome, mkMonitor, getCPULoad, usub, totalOf, idleOf, W,
      cexLast, cexCurr, ACTIVITY_SMOOTHING]

/-! ## Flash policy theorems -/

/-- C2 (amended): whenever the flash state is Active, the tick returns to
Idle exactly when the elapsed time since the Active period began is
strictly greater than the recorded target flash duration, for every load
value and all draws (the transition is unconditional on load); when the
elapsed time is less than or equal to the duration the state, and the
hardware output, stay exactly as they were (still Active). -/
theorem active_to_idle_iff (s : FlashState) (g : GPIOState) (cpuLoad : ℚ)
    (t : Int) (r1 r2 r3 : ℚ) (h : s.isGreen = true) :
    ((tickFull s g cpuLoad t r1 r2 r3).1.isGreen = false
      ↔ t - s.flashTimer > s.currentFlashDuration)
    ∧ (¬ t - s.flashTimer > s.currentFlashDuration →
        tickFull s g cpuLoad t r1 r2 r3 = (s, g)) := by
  simp only [tickFull]
  by_cases hc : s.isGreen = true ∧ t - s.flashTimer > s.currentFlashDuration
  · rw [if_pos hc]
    exact ⟨⟨fun _ => hc.2, fun _ => rfl⟩, fun hn => absurd hc.2 hn⟩
  · have hnot : ¬ t - s.flashTimer > s.currentFlashDuration := fun hgt => hc ⟨h, hgt⟩
    have h2 : ¬(s.isGreen = false ∧ cpuLoad > ACTIVITY_THRESHOLD ∧
        t - s.lastFlashEndTime > MIN_PAUSE_BETWEEN_FLASHES_MS) := by
      rintro ⟨hg, -⟩
      rw [h] at hg
      exact Bool.noConfusion hg
    rw [if_neg hc, if_neg h2]
    refine ⟨⟨fun hg => ?_, fun hgt => absurd hgt hnot⟩, fun _ => rfl⟩
    rw [h] at hg
    exact Bool.noConfusion hg

theorem active_to_idle_iff_w :
    ((tickFull ⟨true, 0, 0, 12⟩ ⟨0, 0, 0, 0⟩ 0 13 0 0 0).1.isGreen = false
      ↔ (13 : Int) - 0 > (12 : Int))
    ∧ (¬ (13 : Int) - 0 > (12 : Int) →
        tickFull ⟨true, 0, 0, 12⟩ ⟨0, 0, 0, 0⟩ 0 13 0 0 0
          = (⟨true, 0, 0, 12⟩, ⟨0, 0, 0, 0⟩)) :=
  active_to_idle_iff ⟨true, 0, 0, 12⟩ ⟨0, 0, 0, 0⟩ 0 13 0 0 0 rfl

/-- C2 counterexample: with the flash Active since time 0 and a recorded
duration of 12 ms, a tick at time 12 has elapsed time equal to the
duration (so elapsed ≥ duration), yet the state stays Active: the code
compares with a strict `>` (line 219), so the claimed transition at
`elapsed = duration` does not happen. -/
theorem active_at_equal_elapsed_cex :
    (12 : Int) - 0 ≥ (12 : Int)
    ∧ (tickFull ⟨true, 0, 0, 12⟩ ⟨0, 0, 0, 0⟩ 100 12 0 0 0).1.isGreen = true := by
  constructor
  · norm_num
  · norm_num [tickFull]

/-- C4: the target flash duration is within
`[MIN_FLASH_DURATION_MS, MAX_FLASH_DURATION_MS]` at all times, in
particular whenever the state is Active: it starts at
`MIN_FLASH_DURATION_MS` (inside the interval), every newly computed
duration (base from cpuFactor plus jitter) is clamped into the interval,
and a tick preserves the interval membership. -/
theorem flash_duration_invariant (s : FlashState) (g : GPIOState)
    (cpuLoad : ℚ) (t t0 : Int) (r1 r2 r3 : ℚ)
    (h12 : MIN_FLASH_DURATION_MS ≤ s.currentFlashDuration)
    (h50 : s.currentFlashDuration ≤ MAX_FLASH_DURATION_MS) :
    (MIN_FLASH_DURATION_MS
        ≤ (tickFull s g cpuLoad t r1 r2 r3).1.currentFlashDuration
      ∧ (tickFull s g cpuLoad t r1 r2 r3).1.currentFlashDuration
        ≤ MAX_FLASH_DURATION_MS)
    ∧ (MIN_FLASH_DURATION_MS ≤ newFlashDuration cpuLoad r3
      ∧ newFlashDuration cpuLoad r3 ≤ MAX_FLASH_DURATION_MS)
    ∧ (initialFlashState t0).currentFlashDuration = MIN_FLASH_DURATION_MS := by
  have hnew : MIN_FLASH_DURATION_MS ≤ newFlashDuration cpuLoad r3
      ∧ newFlashDuration cpuLoad r3 ≤ MAX_FLASH_DURATION_MS := by
    unfold newFlashDuration
    refine ⟨le_max_left _ _, max_le ?_ (min_le_left _ _)⟩
    unfold MIN_FLASH_DURATION_MS MAX_FLASH_DURATION_MS
    norm_num
  refine ⟨?_, hnew, rfl⟩
  simp only [tickFull]
  split_ifs
  · exact ⟨h12, h50⟩
  · exact hnew
  · exact ⟨h12, h50⟩
  · exact ⟨h12, h50⟩

theorem flash_duration_invariant_w :
    (MIN_FLASH_DURATION_MS
        ≤ (tickFull ⟨false, 0, 0, 12⟩ ⟨0, 0, 0, 0⟩ 0 0 0 0 0).1.currentFlashDuration
      ∧ (tickFull ⟨false, 0, 0, 12⟩ ⟨0, 0, 0, 0⟩ 0 0 0 0 0).1.currentFlashDuration
        ≤ MAX_FLASH_DURATION_MS)
    ∧ (MIN_FLASH_DURATION_MS ≤ newFlashDuration 0 0
      ∧ newFlashDuration 0 0 ≤ MAX_FLASH_DURATION_MS)
    ∧ (initialFlashState 0).currentFlashDuration = MIN_FLASH_DURATION_MS :=
  flash_duration_invariant ⟨false, 0, 0, 12⟩ ⟨0, 0, 0, 0⟩ 0 0 0 0 0 0
    (by decide) (by decide)

/-- C5: while in Idle, no transition to Active ever occurs — for every
possible combination of random draws — unless both the smoothed load
strictly exceeds `ACTIVITY_THRESHOLD` and the elapsed time since the
previous Active period ended exceeds `MIN_PAUSE_BETWEEN_FLASHES_MS`: with
load at or below the threshold, or while debounced, the tick leaves the
flash state and the hardware output exactly unchanged (Idle/red). -/
theorem idle_no_transition (s : FlashState) (g : GPIOState) (cpuLoad : ℚ)
    (t : Int) (r1 r2 r3 : ℚ) (hI : s.isGreen = false)
    (h : cpuLoad ≤ ACTIVITY_THRESHOLD
      ∨ t - s.lastFlashEndTime ≤ MIN_PAUSE_BETWEEN_FLASHES_MS) :
    tickFull s g cpuLoad t r1 r2 r3 = (s, g) := by
  have h1 : ¬(s.isGreen = true ∧ t - s.flashTimer > s.currentFlashDuration) := by
    rintro ⟨hg, -⟩
    rw [hI] at hg
    exact Bool.noConfusion hg
  have h2 : ¬(s.isGreen = false ∧ cpuLoad > ACTIVITY_THRESHOLD ∧
      t - s.lastFlashEndTime > MIN_PAUSE_BETWEEN_FLASHES_MS) := by
    rintro ⟨-, hload, hpause⟩
    rcases h with h | h
    · exact absurd hload (not_lt.2 h)
    · exact absurd hpause (not_lt.2 h)
  simp only [tickFull]
  rw [if_neg h1, if_neg h2]

theorem idle_no_transition_w :
    tickFull ⟨false, 0, 0, 12⟩ ⟨0, 0, 0, 0⟩ 0 0 0 0 0
      = (⟨false, 0, 0, 12⟩, ⟨0, 0, 0, 0⟩) :=
  idle_no_transition ⟨false, 0, 0, 12⟩ ⟨0, 0, 0, 0⟩ 0 0 0 0 0 rfl
    (Or.inl (by norm_num [ACTIVITY_THRESHOLD]))

/-! ## Jitter arithmetic (C6) -/

/-- C6 (amended): for every draw `r3 ∈ [0,1)` the random adjustment
`randomVariation − randomVariation/2` added to the unjittered base lies
in `[0, 6]`: it is never negative — the jitter is one-sided above the
base, not symmetric around it — and its maximum of 6 ms slightly exceeds
15% of the 38 ms duration range (5.7 ms). -/
theorem jitter_adjustment_bounds (r3 : ℚ) (h0 : 0 ≤ r3) (h1 : r3 < 1) :
    0 ≤ jitterAdjust r3 ∧ jitterAdjust r3 ≤ 6 := by
  have hd : ((durationRange : Int) : ℚ) = 38 := by
    norm_num [durationRange, MAX_FLASH_DURATION_MS, MIN_FLASH_DURATION_MS]
  have hq0 : 0 ≤ ((durationRange : Int) : ℚ) * (3/10) * r3 := by
    rw [hd]
    positivity
  have hqlt : ((durationRange : Int) : ℚ) * (3/10) * r3 < ((12 : Int) : ℚ) := by
    rw [hd]
    push_cast
    nlinarith
  have hrv0 : 0 ≤ randomVariation r3 := by
    unfold randomVariation itrunc
    rw [if_neg (not_lt.2 hq0)]
    exact Int.floor_nonneg.2 hq0
  have hrv1 : randomVariation r3 ≤ 11 := by
    unfold randomVariation itrunc
    rw [if_neg (not_lt.2 hq0)]
    have h12 := Int.floor_lt.2 hqlt
    omega
  unfold jitterAdjust
  generalize hg : randomVariation r3 = rv at hrv0 hrv1 ⊢
  interval_cases rv <;> decide

theorem jitter_adjustment_bounds_w :
    0 ≤ jitterAdjust (1/2) ∧ jitterAdjust (1/2) ≤ 6 :=
  jitter_adjustment_bounds (1/2) (by norm_num) (by norm_num)

/-- C6 counterexample: at the concrete draw `r3 = 99/100` the random
adjustment is `6` ms, whose magnitude exceeds 15% of the duration range
(`0.15 × 38 = 5.7` ms); so the adjustment is not bounded by ±15% of the
range as claimed (and by `jitter_adjustment_bounds` it is never negative,
hence not symmetric around the unjittered base either). -/
theorem jitter_cex :
    jitterAdjust (99/100) = 6
    ∧ ¬ ((jitterAdjust (99/100) : ℚ) ≤ (15/100) * ((durationRange : Int) : ℚ)) := by
  have hrv : randomVariation (99/100) = 11 := by
    unfold randomVariation itrunc durationRange MAX_FLASH_DURATION_MS MIN_FLASH_DURATION_MS
    rw [if_neg (by norm_num)]
    norm_num [Int.floor_eq_iff]
  have h6 : jitterAdjust (99/100) = 6 := by
    unfold jitterAdjust
    rw [hrv]
    decide
  refine ⟨h6, ?_⟩
  rw [h6]
  norm_num [durationRange, MAX_FLASH_DURATION_MS, MIN_FLASH_DURATION_MS]

/-! ## Shutdown (C3) -/

/-- C3: on any termination request (`signalHandler`) and on the main
loop's exit path, both output channels are forced to the Off
configuration — channel A level 0, channel B duty cycle 0 — and the
hardware is released (`gpioTerminate`) before exiting, for every prior
hardware state (in particular mid-Active, with the green PWM on); the
exit status is 0 on these graceful paths and the initialization-failure
exit status is non-zero. -/
theorem shutdown_forces_off (g : GPIOState) :
    ((signalHandler g).gpio.levelA = 0 ∧ (signalHandler g).gpio.pwmB = 0
      ∧ (signalHandler g).terminated = true ∧ (signalHandler g).exitCode = 0)
    ∧ ((loopExitShutdown g).gpio.levelA = 0 ∧ (loopExitShutdown g).gpio.pwmB = 0
      ∧ (loopExitShutdown g).terminated = true
      ∧ (loopExitShutdown g).exitCode = 0)
    ∧ initFailureExitCode ≠ 0 := by
  simp [signalHandler, loopExitShutdown, setOff, gpioWriteOp, gpioPWMOp,
    PIN_A, PIN_B, initFailureExitCode]

/-! ## Sampler calibration and failure behavior (C7-C10) -/

/-- C7: on the first successful counter read, `getCPULoad` stores that
snapshot as the baseline, sets the initialization flag, and returns
exactly 0 without applying the smoothing update (the stored smoothed
value is untouched); the program starts Idle with the red output asserted
(channel A high, channel B duty 0), and a tick whose reported load is 0
never transitions to Active, whatever the time and the random draws. -/
theorem first_read_calibration (m : CPUMonitor) (s : CPUStats)
    (g : GPIOState) (t0 : Int) (h : m.initialized = false) :
    getCPULoad m (some s) = (0, { m with initialized := true, lastStats := s })
    ∧ (initialFlashState t0).isGreen = false
    ∧ (setRed g).levelA = 1 ∧ (setRed g).levelB = 0 ∧ (setRed g).pwmB = 0
    ∧ (∀ (fs : FlashState) (g2 : GPIOState) (t : Int) (q1 q2 q3 : ℚ),
        fs.isGreen = false → tickFull fs g2 0 t q1 q2 q3 = (fs, g2)) := by
  refine ⟨?_, rfl, ?_, ?_, ?_, ?_⟩
  · simp only [getCPULoad]
    rw [if_pos h]
  · simp [setRed, gpioWriteOp, gpioPWMOp, PIN_A, PIN_B]
  · simp [setRed, gpioWriteOp, gpioPWMOp, PIN_A, PIN_B]
  · simp [setRed, gpioWriteOp, gpioPWMOp, PIN_A, PIN_B]
  · intro fs g2 t q1 q2 q3 hfs
    have h1 : ¬(fs.isGreen = true ∧ t - fs.flashTimer > fs.currentFlashDuration) := by
      rintro ⟨hg, -⟩
      rw [hfs] at hg
      exact Bool.noConfusion hg
    have h2 : ¬(fs.isGreen = false ∧ (0:ℚ) > ACTIVITY_THRESHOLD ∧
        t - fs.lastFlashEndTime > MIN_PAUSE_BETWEEN_FLASHES_MS) := by
      rintro ⟨-, hload, -⟩
      norm_num [ACTIVITY_THRESHOLD] at hload
    simp only [tickFull]
    rw [if_neg h1, if_neg h2]

theorem first_read_calibration_w :
    getCPULoad (mkMonitor ⟨0,0,0,0,0,0,0⟩) (some ⟨1,0,0,0,0,0,0⟩)
      = (0, ⟨⟨1,0,0,0,0,0,0⟩, 0, true⟩)
    ∧ (initialFlashState 0).isGreen = false
    ∧ (setRed ⟨0,0,0,0⟩).levelA = 1 ∧ (setRed ⟨0,0,0,0⟩).levelB = 0
    ∧ (setRed ⟨0,0,0,0⟩).pwmB = 0
    ∧ (∀ (fs : FlashState) (g2 : GPIOState) (t : Int) (q1 q2 q3 : ℚ),
        fs.isGreen = false → tickFull fs g2 0 t q1 q2 q3 = (fs, g2)) :=
  first_read_calibration (mkMonitor ⟨0,0,0,0,0,0,0⟩) ⟨1,0,0,0,0,0,0⟩
    ⟨0,0,0,0⟩ 0 rfl

/-- C8: with the sampler initialized, if two consecutive successful reads
have equal wrapped summed totals (`total_diff = 0`), `getCPULoad` returns
the previous smoothed value unchanged without the division, yet the
stored snapshot is replaced by the current one, so the next tick diffs
against the fresh snapshot. -/
theorem zero_delta_guard (m : CPUMonitor) (s : CPUStats)
    (hinit : m.initialized = true) (heq : totalOf s = totalOf m.lastStats) :
    getCPULoad m (some s) = (m.cpuLoad, { m with lastStats := s }) := by
  simp only [getCPULoad]
  rw [if_neg (by rw [hinit]; exact fun hx => Bool.noConfusion hx)]
  rw [if_pos (by rw [heq]; unfold usub W; omega)]

theorem zero_delta_guard_w :
    getCPULoad ⟨⟨1,0,0,0,0,0,0⟩, 7, true⟩ (some ⟨0,1,0,0,0,0,0⟩)
      = (7, ⟨⟨0,1,0,0,0,0,0⟩, 7, true⟩) :=
  zero_delta_guard ⟨⟨1,0,0,0,0,0,0⟩, 7, true⟩ ⟨0,1,0,0,0,0,0⟩ rfl (by decide)

/-- C9: if the CPU counter read fails, `getCPULoad` returns the last
known smoothed load and leaves the entire monitor state — stored
snapshot, smoothed value and initialization flag — unchanged; no error is
surfaced to the caller. -/
theorem read_failure_absorbed (m : CPUMonitor) :
    getCPULoad m none = (m.cpuLoad, m) := rfl

lemma runReads_none (m : CPUMonitor) (reads : List (Option CPUStats))
    (h : ∀ r ∈ reads, r = none) : runReads m reads = m := by
  induction reads with
  | nil => rfl
  | cons a l ih =>
    have ha : a = none := h a (List.mem_cons_self a l)
    have hl : ∀ r ∈ l, r = none := fun r hr => h r (List.mem_cons_of_mem a hr)
    simp only [runReads, List.foldl_cons]
    rw [ha]
    exact ih hl

/-- C10: every `getCPULoad` call made before the first successful read
returns exactly 0, even when the read fails: any run of failed reads
leaves the monitor in its freshly constructed state with the
initialization flag still unset and the default smoothed value 0, the
next call (failed or successful) still returns 0, and calibration happens
at the next successful read, which sets the flag. -/
theorem pre_init_returns_zero (s0 : CPUStats) (reads : List (Option CPUStats))
    (h : ∀ r ∈ reads, r = none) (r : Option CPUStats) (s : CPUStats) :
    runReads (mkMonitor s0) reads = mkMonitor s0
    ∧ (runReads (mkMonitor s0) reads).initialized = false
    ∧ (getCPULoad (runReads (mkMonitor s0) reads) r).1 = 0
    ∧ ((getCPULoad (runReads (mkMonitor s0) reads) (some s)).2).initialized
        = true := by
  have hrun := runReads_none (mkMonitor s0) reads h
  rw [hrun]
  refine ⟨rfl, rfl, ?_, ?_⟩
  · cases r with
    | none => rfl
    | some s2 =>
      simp only [getCPULoad]
      rw [if_pos (show (mkMonitor s0).initialized = false from rfl)]
  · simp only [getCPULoad]
    rw [if_pos (show (mkMonitor s0).initialized = false from rfl)]

theorem pre_init_returns_zero_w :
    runReads (mkMonitor ⟨0,0,0,0,0,0,0⟩) [none, none] = mkMonitor ⟨0,0,0,0,0,0,0⟩
    ∧ (runReads (mkMonitor ⟨0,0,0,0,0,0,0⟩) [none, none]).initialized = false
    ∧ (getCPULoad (runReads (mkMonitor ⟨0,0,0,0,0,0,0⟩) [none, none]) none).1 = 0
    ∧ ((getCPULoad (runReads (mkMonitor ⟨0,0,0,0,0,0,0⟩) [none, none])
        (some ⟨1,0,0,0,0,0,0⟩)).2).initialized = true :=
  pre_init_returns_zero ⟨0,0,0,0,0,0,0⟩ [none, none] (by decide) none
    ⟨1,0,0,0,0,0,0⟩
